import Mathlib

set_option autoImplicit false

namespace LLMSpec

/-!
Embedding of the `llm` package: the data model, the provider registry
(`service.go`), and the bounded batch embedder (`LLMEmbedder`).
Go's `(T, error)` return pairs become `Except`; errors built with
`errors.New` / `fmt.Errorf` become constructors of error inductives that
keep the wrapped cause.
-/

/-- Token usage record (`Usage`). -/
structure Usage where
  PromptTokens : Int
  CompletionTokens : Int
  TotalTokens : Int

/-- `ModelInfo`: static description of one model. -/
structure ModelInfo where
  Name : String
  ContextWindowSize : Int
  MaxOutputTokens : Int
  SupportsImageInput : Bool
  SupportsAudioInput : Bool
  SupportsVisionOutput : Bool
  PricingPerInputToken : Float
  PricingPerOutputToken : Float

/-- `EmbeddingRequest`. The free-form `Metadata` map is never read or
written by the code under verification and is omitted. -/
structure EmbeddingRequest where
  Input : String
  Model : String

/-- `EmbeddingResponse` (`Metadata` omitted as above). -/
structure EmbeddingResponse where
  Embedding : List Float
  UsageInfo : Usage

/-- The slice of the `Provider` interface that the registry claims
exercise: the value `Name()` returns and the (context-fixed) outcome of
`ListModels(ctx)`. Backend errors are modelled as strings. -/
structure Provider where
  name : String
  listModels : Except String (List ModelInfo)

/-- Errors produced by the registry `service`, one constructor per
`fmt.Errorf` site, keeping the data interpolated into the message. -/
inductive ServiceError where
  | providerCannotBeNil
  | providerNameCannotBeEmpty
  | providerAlreadyRegistered (name : String)
  | providerNotFound (name : String)
  | failedToListModels (name : String) (cause : String)

/-- Spec error taxonomy: `InvalidArgument` covers the nil-provider and
empty-name registration failures. -/
def ServiceError.isInvalidArgument : ServiceError → Prop
  | ServiceError.providerCannotBeNil => True
  | ServiceError.providerNameCannotBeEmpty => True
  | _ => False

/-- The registry (`service` struct): its `map[string]Provider` is modelled
as an association list with unique keys, looked up by first match. The
mutex only guards the map and has no observable effect on the sequential
semantics. -/
structure service where
  providers : List (String × Provider)

/-- `NewService`: empty provider map. -/
def NewService : service := ⟨[]⟩

/-- Go map indexing `s.providers[name]`: first (unique) matching key. -/
def lookupProvider : List (String × Provider) → String → Option Provider
  | [], _ => none
  | pr :: rest, name => if pr.1 = name then some pr.2 else lookupProvider rest name

/-- `service.RegisterProvider`. Returns the (possibly) updated state and
the returned error, `none` on success. The nil interface argument is
modelled by `Option Provider`. -/
def service.RegisterProvider (s : service) (provider : Option Provider) :
    service × Option ServiceError :=
  match provider with
  | none => (s, some ServiceError.providerCannotBeNil)
  | some p =>
    if p.name = "" then
      (s, some ServiceError.providerNameCannotBeEmpty)
    else
      match lookupProvider s.providers p.name with
      | some _ => (s, some (ServiceError.providerAlreadyRegistered p.name))
      | none => (⟨s.providers ++ [(p.name, p)]⟩, none)

/-- `service.GetProvider`. -/
def service.GetProvider (s : service) (name : String) : Except ServiceError Provider :=
  match lookupProvider s.providers name with
  | some p => Except.ok p
  | none => Except.error (ServiceError.providerNotFound name)

/-- `service.ListProviders`: the registered names. Go map iteration order
is unspecified; the model yields insertion order, and no claim depends on
the order. -/
def service.ListProviders (s : service) : List String :=
  s.providers.map (fun pr => pr.1)

/-- The loop body of `service.ListModels`: walk the provider snapshot,
return the wrapped error of the first provider whose listing fails,
otherwise collect `name -> models` entries. -/
def listModelsLoop : List (String × Provider) → Except ServiceError (List (String × List ModelInfo))
  | [] => Except.ok []
  | pr :: rest =>
    match pr.2.listModels with
    | Except.error err => Except.error (ServiceError.failedToListModels pr.1 err)
    | Except.ok models =>
      match listModelsLoop rest with
      | Except.error e => Except.error e
      | Except.ok r => Except.ok ((pr.1, models) :: r)

/-- `service.ListModels`: snapshot the map under the read lock, then query
every provider, aborting on the first failure. -/
def service.ListModels (s : service) : Except ServiceError (List (String × List ModelInfo)) :=
  listModelsLoop s.providers

/-- The `Except.ok` payload of a provider's listing, used to describe
`ListModels`' successful aggregate. -/
def okModels : Except String (List ModelInfo) → List ModelInfo
  | Except.ok m => m
  | Except.error _ => []

/-- Errors produced by `LLMEmbedder.Embed`, one constructor per
`fmt.Errorf` site. -/
inductive EmbedError where
  | unsupportedContentType
  | failedToGetEmbedding (cause : String)
  | dimensionMismatch (expected : Int) (got : Nat)

/-- The error `LLMEmbedder.BatchEmbed` returns: the wrapped per-item
failure (`batch embedding failed: %w`). -/
inductive BatchError where
  | batchEmbeddingFailed (cause : EmbedError)

/-- `Embed`'s `interface{}` content argument: a `string`, a `[]byte`, a
`fmt.Stringer` (carrying the text its `String()` method returns), or any
other dynamic value (numeric, structured, ...). -/
inductive Content where
  | str (s : String)
  | bytes (b : List Char)
  | stringer (s : String)
  | other

/-- The type switch at the top of `Embed`: the text a supported content
value normalizes to (`string(c)` on a byte slice modelled as building the
string from its decoded characters); `none` for the `default` case. -/
def Content.toText : Content → Option String
  | Content.str s => some s
  | Content.bytes b => some (String.mk b)
  | Content.stringer s => some s
  | Content.other => none

/-- `LLMEmbedder`. Its `service` field is only ever used through
`Service.Embed(ctx, provider, model, request)`, so it is modelled as that
method: a function of the provider name, the model name and the request. -/
structure LLMEmbedder where
  service : String → String → EmbeddingRequest → Except String EmbeddingResponse
  provider : String
  model : String
  dimensions : Int
  maxPoolSize : Int

/-- `NewLLMEmbedder`: stores the configuration and the default concurrency
pool size of 10. -/
def NewLLMEmbedder (service : String → String → EmbeddingRequest → Except String EmbeddingResponse)
    (provider model : String) (dimensions : Int) : LLMEmbedder :=
  ⟨service, provider, model, dimensions, 10⟩

/-- `LLMEmbedder.SetMaxPoolSize`: a positive size is stored; otherwise the
field is set (back) to the default 10. -/
def LLMEmbedder.SetMaxPoolSize (e : LLMEmbedder) (size : Int) : LLMEmbedder :=
  if 0 < size then
    ⟨e.service, e.provider, e.model, e.dimensions, size⟩
  else
    ⟨e.service, e.provider, e.model, e.dimensions, 10⟩

/-- The body of `Embed` after content normalization: build the request,
issue the single backend call, wrap its failure, and apply the
expected-dimension check (`e.dimensions > 0 && len != e.dimensions`). -/
def LLMEmbedder.embedText (e : LLMEmbedder) (textContent : String) :
    Except EmbedError (List Float) :=
  match e.service e.provider e.model ⟨textContent, ""⟩ with
  | Except.error err => Except.error (EmbedError.failedToGetEmbedding err)
  | Except.ok response =>
    if 0 < e.dimensions ∧ (response.Embedding.length : Int) ≠ e.dimensions then
      Except.error (EmbedError.dimensionMismatch e.dimensions response.Embedding.length)
    else
      Except.ok response.Embedding

/-- `LLMEmbedder.Embed`: the content type switch, then `embedText`. -/
def LLMEmbedder.Embed (e : LLMEmbedder) (content : Content) :
    Except EmbedError (List Float) :=
  match content.toText with
  | none => Except.error EmbedError.unsupportedContentType
  | some textContent => e.embedText textContent

/-- The error component a worker stores into `errs[idx]` (`nil` when the
item embedded successfully). -/
def errOf {ε α : Type} : Except ε α → Option ε
  | Except.error e => some e
  | Except.ok _ => none

/-- The vector a worker stores into `results[idx]` (left `nil`, i.e. the
empty list, when the item failed). -/
def okOrNil : Except EmbedError (List Float) → List Float
  | Except.ok v => v
  | Except.error _ => []

/-- The final loop of `BatchEmbed`: scan the index-ordered error array and
return the lowest-index error, if any. -/
def firstError : List (Option EmbedError) → Option EmbedError
  | [] => none
  | some err :: _ => some err
  | none :: rest => firstError rest

/-- `LLMEmbedder.BatchEmbed`. Each worker goroutine writes `results[idx]`
and `errs[idx]` with the outcome of `e.Embed` on item `idx`; every index is
written by exactly one worker and read only after one completion signal per
item has been received, so the two arrays are schedule-independent and
equal these maps (the semaphore bounds in-flight work but does not affect
values). The error array is then scanned in ascending index order: the
first error fails the whole batch with the results discarded (`nil` is
returned for the vectors); otherwise the index-ordered results are
returned. -/
def LLMEmbedder.BatchEmbed (e : LLMEmbedder) (contents : List Content) :
    Except BatchError (List (List Float)) :=
  match firstError (contents.map (fun c => errOf (e.Embed c))) with
  | some err => Except.error (BatchError.batchEmbeddingFailed err)
  | none => Except.ok (contents.map (fun c => okOrNil (e.Embed c)))

/-- A backend stub whose embedding call always succeeds with the fixed
vector `v`, used to instantiate theorems at concrete inputs. -/
def constService (v : List Float) :
    String → String → EmbeddingRequest → Except String EmbeddingResponse :=
  fun _ _ _ => Except.ok ⟨v, ⟨0, 0, 0⟩⟩

/-- A backend stub whose embedding call always fails. -/
def failingService : String → String → EmbeddingRequest → Except String EmbeddingResponse :=
  fun _ _ _ => Except.error "backend down"

/-- Concrete embedder over a constant one-dimensional backend, used to
instantiate the batch theorems. -/
def embedderW : LLMEmbedder := NewLLMEmbedder (constService [0.5]) "p" "m" 1

/-- Concrete all-supported batch input. -/
def contentsOk : List Content := [Content.str "x", Content.bytes [Char.ofNat 97], Content.stringer "z"]

/-- Concrete batch input with one unsupported item. -/
def contentsOneBad : List Content := [Content.str "x", Content.other]

/-- Concrete batch input with two failing items (indices 1 and 2). -/
def contentsTwoBad : List Content := [Content.str "x", Content.other, Content.other]

/-- Concrete embedders for the dimension-check witness. -/
def embedderDim3 : LLMEmbedder := NewLLMEmbedder (constService [0.1, 0.2, 0.3]) "p" "m" 3

/-- As `embedderDim3`, but the backend returns one element too few. -/
def embedderDim3Short : LLMEmbedder := NewLLMEmbedder (constService [0.1, 0.2]) "p" "m" 3

/-- As `embedderDim3Short`, but with no expected dimension configured. -/
def embedderDim0 : LLMEmbedder := NewLLMEmbedder (constService [0.1, 0.2]) "p" "m" 0

/-- Concrete models for the registry witnesses (spec §8 scenario). -/
def modelM1 : ModelInfo := ⟨"M1", 1024, 2048, false, false, false, 0, 0⟩

/-- Second model of provider `a` in the spec §8 scenario. -/
def modelM2 : ModelInfo := ⟨"M2", 2048, 2048, false, false, false, 0, 0⟩

/-- Model of provider `b` in the spec §8 scenario. -/
def modelM3 : ModelInfo := ⟨"M3", 4096, 2048, false, false, false, 0, 0⟩

/-- Concrete providers for the registry witnesses. -/
def providerA : Provider := ⟨"a", Except.ok [modelM1, modelM2]⟩

/-- A second provider instance carrying the same name as `providerA`. -/
def providerADup : Provider := ⟨"a", Except.error "duplicate"⟩

/-- Provider `b` of the spec §8 scenario. -/
def providerB : Provider := ⟨"b", Except.ok [modelM3]⟩

/-- A provider whose listing call fails. -/
def providerC : Provider := ⟨"c", Except.error "boom"⟩

/-- A provider with an empty name. -/
def providerNoName : Provider := ⟨"", Except.ok []⟩

/-- Registry holding providers `a` and `b`, every listing succeeding. -/
def svcAB : service := ⟨[("a", providerA), ("b", providerB)]⟩

/-- Registry holding provider `a` and the failing provider `c`. -/
def svcWithFailing : service := ⟨[("a", providerA), ("c", providerC)]⟩

/-- Lemmas and claim theorems. -/

theorem firstError_map_eq_none (e : LLMEmbedder) (contents : List Content)
    (h : ∀ c ∈ contents, ∃ v, e.Embed c = Except.ok v) :
    firstError (contents.map (fun c => errOf (e.Embed c))) = none := by
  induction contents with
  | nil => rfl
  | cons c rest ih =>
    obtain ⟨v, hv⟩ := h c (List.mem_cons_self c rest)
    simp only [List.map_cons, hv]
    simpa [errOf, firstError] using ih (fun x hx => h x (List.mem_cons_of_mem _ hx))

theorem firstError_map_eq_some (e : LLMEmbedder) (contents : List Content)
    (h : ∃ c ∈ contents, ∃ er, e.Embed c = Except.error er) :
    ∃ er, firstError (contents.map (fun c => errOf (e.Embed c))) = some er ∧
      ∃ c ∈ contents, e.Embed c = Except.error er := by
  induction contents with
  | nil => simp at h
  | cons c rest ih =>
    cases hc : e.Embed c with
    | error er =>
      exact ⟨er, by simp [hc, errOf, firstError], c, List.mem_cons_self c rest, hc⟩
    | ok v =>
      have hrest : ∃ x ∈ rest, ∃ er, e.Embed x = Except.error er := by
        obtain ⟨c0, hc0, er, her⟩ := h
        rcases List.mem_cons.mp hc0 with rfl | hmem
        · rw [hc] at her; cases her
        · exact ⟨c0, hmem, er, her⟩
      obtain ⟨er, hfe, c0, hc0, her⟩ := ih hrest
      exact ⟨er, by simp only [List.map_cons, hc]; exact hfe, c0, List.mem_cons_of_mem _ hc0, her⟩

theorem firstError_map_lowest (e : LLMEmbedder) (contents : List Content) (i : Nat)
    (hi : i < contents.length) (err : EmbedError)
    (herr : e.Embed (contents.get ⟨i, hi⟩) = Except.error err)
    (hbefore : ∀ j (hj : j < i), ∃ v, e.Embed (contents.get ⟨j, Nat.lt_trans hj hi⟩) = Except.ok v) :
    firstError (contents.map (fun c => errOf (e.Embed c))) = some err := by
  induction contents generalizing i with
  | nil => exact absurd hi (Nat.not_lt_zero i)
  | cons c rest ih =>
    cases i with
    | zero =>
      simp only [List.get_eq_getElem, List.getElem_cons_zero] at herr
      simp [herr, errOf, firstError]
    | succ j =>
      obtain ⟨v, hv⟩ : ∃ v, e.Embed c = Except.ok v := by
        have h0 := hbefore 0 (Nat.succ_pos j)
        simpa using h0
      simp only [List.map_cons, hv]
      have hj' : j < rest.length := by simpa using Nat.lt_of_succ_lt_succ hi
      have herr' : e.Embed (rest.get ⟨j, hj'⟩) = Except.error err := by
        simp only [List.get_eq_getElem, List.getElem_cons_succ] at herr
        exact herr
      have hbefore' : ∀ k (hk : k < j),
          ∃ v, e.Embed (rest.get ⟨k, Nat.lt_trans hk hj'⟩) = Except.ok v := by
        intro k hk
        have := hbefore (k + 1) (Nat.succ_lt_succ hk)
        simpa using this
      simpa [errOf, firstError] using ih j hj' herr' hbefore'

/-- Claim C1: when every per-item embed succeeds, `BatchEmbed` succeeds,
its output has the same length as the input, and the vector at every index
`i` is exactly what a direct `Embed` of input `i` produces. -/
theorem batchEmbed_preserves_order (e : LLMEmbedder) (contents : List Content)
    (h : ∀ c ∈ contents, ∃ v, e.Embed c = Except.ok v) :
    ∃ out, e.BatchEmbed contents = Except.ok out ∧
      out.length = contents.length ∧
      ∀ i (hi : i < contents.length) (ho : i < out.length),
        e.Embed (contents.get ⟨i, hi⟩) = Except.ok (out.get ⟨i, ho⟩) := by
  refine ⟨contents.map (fun c => okOrNil (e.Embed c)), ?_, by simp, ?_⟩
  · unfold LLMEmbedder.BatchEmbed
    rw [firstError_map_eq_none e contents h]
  · intro i hi ho
    obtain ⟨v, hv⟩ := h (contents.get ⟨i, hi⟩)
      (by rw [List.get_eq_getElem]; exact List.getElem_mem hi)
    rw [hv]
    simp only [List.get_eq_getElem, List.getElem_map]
    simp only [List.get_eq_getElem] at hv
    rw [hv]
    rfl

/-- Witness for C1 at a three-element batch over a constant backend. -/
theorem batchEmbed_preserves_order_witness :
    ∃ out, embedderW.BatchEmbed contentsOk = Except.ok out ∧
      out.length = contentsOk.length ∧
      ∀ i (hi : i < contentsOk.length) (ho : i < out.length),
        embedderW.Embed (contentsOk.get ⟨i, hi⟩) = Except.ok (out.get ⟨i, ho⟩) :=
  batchEmbed_preserves_order embedderW contentsOk (by
    intro c hc
    simp only [contentsOk, List.mem_cons, List.not_mem_nil, or_false] at hc
    rcases hc with rfl | rfl | rfl <;> exact ⟨[0.5], rfl⟩)

/-- Claim C2: when at least one per-item embed fails, `BatchEmbed` returns
the wrapped error of a failing item and no vector sequence at all. -/
theorem batchEmbed_all_or_nothing (e : LLMEmbedder) (contents : List Content)
    (h : ∃ c ∈ contents, ∃ er, e.Embed c = Except.error er) :
    ∃ er, (∃ c ∈ contents, e.Embed c = Except.error er) ∧
      e.BatchEmbed contents = Except.error (BatchError.batchEmbeddingFailed er) ∧
      ∀ out, e.BatchEmbed contents ≠ Except.ok out := by
  obtain ⟨er, hfe, hmem⟩ := firstError_map_eq_some e contents h
  have hbatch : e.BatchEmbed contents = Except.error (BatchError.batchEmbeddingFailed er) := by
    unfold LLMEmbedder.BatchEmbed
    rw [hfe]
  refine ⟨er, hmem, hbatch, ?_⟩
  intro out hout
  rw [hbatch] at hout
  cases hout

/-- Witness for C2 at a batch whose second item is an unsupported value. -/
theorem batchEmbed_all_or_nothing_witness :
    ∃ er, (∃ c ∈ contentsOneBad, embedderW.Embed c = Except.error er) ∧
      embedderW.BatchEmbed contentsOneBad = Except.error (BatchError.batchEmbeddingFailed er) ∧
      ∀ out, embedderW.BatchEmbed contentsOneBad ≠ Except.ok out :=
  batchEmbed_all_or_nothing embedderW contentsOneBad
    ⟨Content.other, by simp [contentsOneBad], EmbedError.unsupportedContentType, rfl⟩

/-- Claim C10: the error `BatchEmbed` reports is the one recorded for the
lowest failing index — errors are stored per index and scanned in ascending
order after all workers finish, so the report is schedule-independent. -/
theorem batchEmbed_reports_lowest_index_error (e : LLMEmbedder) (contents : List Content)
    (i : Nat) (hi : i < contents.length) (err : EmbedError)
    (herr : e.Embed (contents.get ⟨i, hi⟩) = Except.error err)
    (hbefore : ∀ j (hj : j < i), ∃ v, e.Embed (contents.get ⟨j, Nat.lt_trans hj hi⟩) = Except.ok v) :
    e.BatchEmbed contents = Except.error (BatchError.batchEmbeddingFailed err) := by
  unfold LLMEmbedder.BatchEmbed
  rw [firstError_map_lowest e contents i hi err herr hbefore]

/-- Witness for C10: with failing items at indices 1 and 2, the reported
error is the one of index 1. -/
theorem batchEmbed_reports_lowest_index_error_witness :
    embedderW.BatchEmbed contentsTwoBad =
      Except.error (BatchError.batchEmbeddingFailed EmbedError.unsupportedContentType) :=
  batchEmbed_reports_lowest_index_error embedderW contentsTwoBad 1 (by decide)
    EmbedError.unsupportedContentType rfl (by
      intro j hj
      have hj0 : j = 0 := by omega
      subst hj0
      exact ⟨[0.5], rfl⟩)

/-- Claim C3, as stated, is false: `SetMaxPoolSize` with a non-positive
argument does not leave the ceiling at its current value — after setting 5
and then 0 the ceiling is not 5 (it is reset to the default 10). -/
theorem setMaxPoolSize_nonpos_unchanged_cex :
    ¬ (((NewLLMEmbedder (constService []) "p" "m" 0).SetMaxPoolSize 5).SetMaxPoolSize 0).maxPoolSize
      = 5 := by decide

/-- Claim C3 (amended): `SetMaxPoolSize` with a non-positive argument
resets the ceiling to the default 10 regardless of its current value; in
particular, after `SetMaxPoolSize 5` then `SetMaxPoolSize 0` the ceiling is
10, not 5. -/
theorem setMaxPoolSize_nonpos_resets (e : LLMEmbedder) (m n : Int)
    (_hm : 0 < m) (hn : n ≤ 0) :
    ((e.SetMaxPoolSize m).SetMaxPoolSize n).maxPoolSize = 10 := by
  have hnot : ¬ 0 < n := by omega
  simp [LLMEmbedder.SetMaxPoolSize, hnot]

/-- Witness for the amended C3 at the spec's own scenario (5 then 0). -/
theorem setMaxPoolSize_nonpos_resets_witness :
    (0 : Int) < 5 ∧ (0 : Int) ≤ 0 ∧
    (((NewLLMEmbedder (constService []) "q" "m" 0).SetMaxPoolSize 5).SetMaxPoolSize 0).maxPoolSize
      = 10 :=
  ⟨by decide, by decide,
    setMaxPoolSize_nonpos_resets (NewLLMEmbedder (constService []) "q" "m" 0) 5 0
      (by decide) (by decide)⟩

/-- Claim C4: the constructor's default ceiling is 10; `SetMaxPoolSize`
stores any positive argument and resets to 10 on any non-positive one,
regardless of the previous value. -/
theorem setMaxPoolSize_spec
    (svc : String → String → EmbeddingRequest → Except String EmbeddingResponse)
    (p m : String) (d : Int) (e : LLMEmbedder) (n : Int) :
    (NewLLMEmbedder svc p m d).maxPoolSize = 10 ∧
    (0 < n → (e.SetMaxPoolSize n).maxPoolSize = n) ∧
    (n ≤ 0 → (e.SetMaxPoolSize n).maxPoolSize = 10) := by
  refine ⟨rfl, fun hn => ?_, fun hn => ?_⟩
  · simp [LLMEmbedder.SetMaxPoolSize, hn]
  · have hnot : ¬ 0 < n := by omega
    simp [LLMEmbedder.SetMaxPoolSize, hnot]

/-- Witness for C4 at the default, a positive set, and a zero set. -/
theorem setMaxPoolSize_spec_witness :
    (NewLLMEmbedder (constService []) "p" "m" 3).maxPoolSize = 10 ∧
    ((NewLLMEmbedder (constService []) "p" "m" 3).SetMaxPoolSize 5).maxPoolSize = 5 ∧
    ((NewLLMEmbedder (constService []) "p" "m" 3).SetMaxPoolSize 0).maxPoolSize = 10 :=
  ⟨(setMaxPoolSize_spec (constService []) "p" "m" 3
      (NewLLMEmbedder (constService []) "p" "m" 3) 5).1,
   (setMaxPoolSize_spec (constService []) "p" "m" 3
      (NewLLMEmbedder (constService []) "p" "m" 3) 5).2.1 (by decide),
   (setMaxPoolSize_spec (constService []) "p" "m" 3
      (NewLLMEmbedder (constService []) "p" "m" 3) 0).2.2 (by decide)⟩

/-- Claim C5: with a positive configured dimension, `Embed` fails with the
dimension-mismatch error exactly when the backend vector's length differs
from it, and returns the backend vector unchanged when it matches; with a
non-positive configured dimension the vector is returned without any length
check. -/
theorem embed_dimension_check (e : LLMEmbedder) (content : Content) (t : String)
    (ht : content.toText = some t) (resp : EmbeddingResponse)
    (hr : e.service e.provider e.model ⟨t, ""⟩ = Except.ok resp) :
    (0 < e.dimensions →
      ((resp.Embedding.length : Int) ≠ e.dimensions →
        e.Embed content =
          Except.error (EmbedError.dimensionMismatch e.dimensions resp.Embedding.length)) ∧
      ((resp.Embedding.length : Int) = e.dimensions →
        e.Embed content = Except.ok resp.Embedding)) ∧
    (e.dimensions ≤ 0 → e.Embed content = Except.ok resp.Embedding) := by
  have hBody : e.Embed content =
      if 0 < e.dimensions ∧ (resp.Embedding.length : Int) ≠ e.dimensions then
        Except.error (EmbedError.dimensionMismatch e.dimensions resp.Embedding.length)
      else Except.ok resp.Embedding := by
    have hE : e.Embed content = e.embedText t := by
      simp [LLMEmbedder.Embed, ht]
    rw [hE]
    unfold LLMEmbedder.embedText
    rw [hr]
  refine ⟨fun hd => ⟨fun hne => ?_, fun heq => ?_⟩, fun hd => ?_⟩
  · rw [hBody, if_pos ⟨hd, hne⟩]
  · rw [hBody, if_neg (fun hcontra => hcontra.2 heq)]
  · rw [hBody, if_neg (fun hcontra => absurd hcontra.1 (by omega))]

/-- Witness for C5: a 3-vector backend against expected dimension 3
(success), a 2-vector backend against expected dimension 3 (mismatch), and
a 2-vector backend with dimension 0 configured (no check). -/
theorem embed_dimension_check_witness :
    embedderDim3.Embed (Content.str "x") = Except.ok [0.1, 0.2, 0.3] ∧
    embedderDim3Short.Embed (Content.str "x") =
      Except.error (EmbedError.dimensionMismatch 3 2) ∧
    embedderDim0.Embed (Content.str "x") = Except.ok [0.1, 0.2] :=
  ⟨((embed_dimension_check embedderDim3 (Content.str "x") "x" rfl
      ⟨[0.1, 0.2, 0.3], ⟨0, 0, 0⟩⟩ rfl).1 (by decide)).2 (by decide),
   ((embed_dimension_check embedderDim3Short (Content.str "x") "x" rfl
      ⟨[0.1, 0.2], ⟨0, 0, 0⟩⟩ rfl).1 (by decide)).1 (by decide),
   (embed_dimension_check embedderDim0 (Content.str "x") "x" rfl
      ⟨[0.1, 0.2], ⟨0, 0, 0⟩⟩ rfl).2 (by decide)⟩

/-- Claim C6: strings, byte slices and Stringer values are normalized to
text and handed to the single-request embedding path, while any other
value fails with the unsupported-content error without the backend being
consulted (the result is the same for every backend). -/
theorem embed_content_type_switch (e : LLMEmbedder) :
    (∀ s, e.Embed (Content.str s) = e.embedText s) ∧
    (∀ b, e.Embed (Content.bytes b) = e.embedText (String.mk b)) ∧
    (∀ s, e.Embed (Content.stringer s) = e.embedText s) ∧
    e.Embed Content.other = Except.error EmbedError.unsupportedContentType ∧
    ∀ svc, (LLMEmbedder.mk svc e.provider e.model e.dimensions e.maxPoolSize).Embed Content.other
      = Except.error EmbedError.unsupportedContentType :=
  ⟨fun _ => rfl, fun _ => rfl, fun _ => rfl, rfl, fun _ => rfl⟩

theorem lookupProvider_eq_none_forall (l : List (String × Provider)) (n : String)
    (h : lookupProvider l n = none) : ∀ pr ∈ l, pr.1 ≠ n := by
  induction l with
  | nil => intro pr hpr; cases hpr
  | cons hd rest ih =>
    intro pr hpr
    by_cases hhd : hd.1 = n
    · simp [lookupProvider, hhd] at h
    · rcases List.mem_cons.mp hpr with rfl | hmem
      · exact hhd
      · simp only [lookupProvider, if_neg hhd] at h
        exact ih h pr hmem

theorem lookupProvider_append_new (l : List (String × Provider)) (n : String) (p : Provider)
    (h : lookupProvider l n = none) :
    lookupProvider (l ++ [(n, p)]) n = some p := by
  induction l with
  | nil => simp [lookupProvider]
  | cons hd rest ih =>
    by_cases hhd : hd.1 = n
    · simp [lookupProvider, hhd] at h
    · simp only [lookupProvider, if_neg hhd] at h
      simpa only [List.cons_append, lookupProvider, if_neg hhd] using ih h

/-- Claim C7: registering a nil provider or a provider with an empty name
fails with the corresponding invalid-argument error and leaves the
name-to-provider mapping exactly as it was. -/
theorem registerProvider_invalid (s : service) (p : Provider) (hp : p.name = "") :
    (s.RegisterProvider none = (s, some ServiceError.providerCannotBeNil) ∧
      ServiceError.isInvalidArgument ServiceError.providerCannotBeNil) ∧
    (s.RegisterProvider (some p) = (s, some ServiceError.providerNameCannotBeEmpty) ∧
      ServiceError.isInvalidArgument ServiceError.providerNameCannotBeEmpty) := by
  refine ⟨⟨rfl, trivial⟩, ⟨?_, trivial⟩⟩
  simp [service.RegisterProvider, hp]

/-- Witness for C7 on the empty registry and the empty-named provider. -/
theorem registerProvider_invalid_witness :
    (NewService.RegisterProvider none = (NewService, some ServiceError.providerCannotBeNil) ∧
      ServiceError.isInvalidArgument ServiceError.providerCannotBeNil) ∧
    (NewService.RegisterProvider (some providerNoName) =
        (NewService, some ServiceError.providerNameCannotBeEmpty) ∧
      ServiceError.isInvalidArgument ServiceError.providerNameCannotBeEmpty) :=
  registerProvider_invalid NewService providerNoName rfl

/-- Claim C8: after a successful registration, registering another
provider with the same name fails with the already-registered error and
changes nothing — the original instance stays queryable — and every
`RegisterProvider` call preserves uniqueness of names. -/
theorem registerProvider_duplicate (s : service) (p q : Provider)
    (hq : q.name = p.name)
    (hok : (s.RegisterProvider (some p)).2 = none) :
    (s.RegisterProvider (some p)).1.RegisterProvider (some q) =
      ((s.RegisterProvider (some p)).1,
        some (ServiceError.providerAlreadyRegistered q.name)) ∧
    (s.RegisterProvider (some p)).1.GetProvider p.name = Except.ok p ∧
    ∀ prov, ((s.providers.map (fun pr => pr.1)).Nodup →
      (((s.RegisterProvider prov).1.providers.map (fun pr => pr.1)).Nodup)) := by
  by_cases hname : p.name = ""
  · simp [service.RegisterProvider, hname] at hok
  · cases hlk : lookupProvider s.providers p.name with
    | some r => simp [service.RegisterProvider, hname, hlk] at hok
    | none =>
      have h1 : (s.RegisterProvider (some p)).1 = ⟨s.providers ++ [(p.name, p)]⟩ := by
        simp [service.RegisterProvider, hname, hlk]
      have hlk2 : lookupProvider (s.providers ++ [(p.name, p)]) p.name = some p :=
        lookupProvider_append_new s.providers p.name p hlk
      refine ⟨?_, ?_, ?_⟩
      · rw [h1]
        simp [service.RegisterProvider, hq, hlk2, hname]
      · rw [h1]
        simp [service.GetProvider, hlk2]
      · intro prov hnd
        cases prov with
        | none => simpa [service.RegisterProvider] using hnd
        | some r =>
          by_cases hr : r.name = ""
          · simpa [service.RegisterProvider, hr] using hnd
          · cases hlkr : lookupProvider s.providers r.name with
            | some x => simpa [service.RegisterProvider, hr, hlkr] using hnd
            | none =>
              have hni := lookupProvider_eq_none_forall s.providers r.name hlkr
              simp only [service.RegisterProvider, if_neg hr, hlkr, List.map_append,
                List.map_cons, List.map_nil]
              rw [List.nodup_append]
              refine ⟨hnd, List.nodup_singleton _, ?_⟩
              intro a ha hb
              rcases List.mem_singleton.mp hb with rfl
              obtain ⟨pr, hpr, hfst⟩ := List.mem_map.mp ha
              exact hni pr hpr hfst

/-- Witness for C8: register `a`, then a second instance named `a`. -/
theorem registerProvider_duplicate_witness :
    (NewService.RegisterProvider (some providerA)).1.RegisterProvider (some providerADup) =
      ((NewService.RegisterProvider (some providerA)).1,
        some (ServiceError.providerAlreadyRegistered providerADup.name)) ∧
    (NewService.RegisterProvider (some providerA)).1.GetProvider providerA.name =
      Except.ok providerA ∧
    ∀ prov, ((NewService.providers.map (fun pr => pr.1)).Nodup →
      (((NewService.RegisterProvider prov).1.providers.map (fun pr => pr.1)).Nodup)) :=
  registerProvider_duplicate NewService providerA providerADup rfl rfl

theorem listModelsLoop_all_ok (l : List (String × Provider))
    (h : ∀ pr ∈ l, ∃ m, pr.2.listModels = Except.ok m) :
    listModelsLoop l = Except.ok (l.map (fun pr => (pr.1, okModels pr.2.listModels))) := by
  induction l with
  | nil => rfl
  | cons pr rest ih =>
    obtain ⟨m, hm⟩ := h pr (List.mem_cons_self pr rest)
    have hrest := ih (fun x hx => h x (List.mem_cons_of_mem _ hx))
    simp [listModelsLoop, hm, hrest, okModels]

theorem listModelsLoop_fails (l : List (String × Provider))
    (h : ∃ pr ∈ l, ∃ err, pr.2.listModels = Except.error err) :
    ∃ n err, listModelsLoop l = Except.error (ServiceError.failedToListModels n err) ∧
      ∃ p, (n, p) ∈ l ∧ p.listModels = Except.error err := by
  induction l with
  | nil => simp at h
  | cons pr rest ih =>
    cases hpr : pr.2.listModels with
    | error err =>
      exact ⟨pr.1, err, by simp [listModelsLoop, hpr], pr.2, by simp, hpr⟩
    | ok m =>
      have hrest : ∃ x ∈ rest, ∃ err, x.2.listModels = Except.error err := by
        obtain ⟨pr0, hpr0, err, herr⟩ := h
        rcases List.mem_cons.mp hpr0 with rfl | hmem
        · rw [hpr] at herr; cases herr
        · exact ⟨pr0, hmem, err, herr⟩
      obtain ⟨n, err, hloop, p0, hp0, herr⟩ := ih hrest
      exact ⟨n, err, by simp [listModelsLoop, hpr, hloop],
        p0, List.mem_cons_of_mem _ hp0, herr⟩

/-- Claim C9: when every provider's listing succeeds, `ListModels` returns
one entry per registered provider — its key set is `ListProviders` and each
value is that provider's own listing result; when any provider's listing
fails, `ListModels` fails with that provider's error wrapped with the
provider name and carries no mapping at all. -/
theorem listModels_aggregate (s : service) :
    ((∀ pr ∈ s.providers, ∃ m, pr.2.listModels = Except.ok m) →
      s.ListModels =
        Except.ok (s.providers.map (fun pr => (pr.1, okModels pr.2.listModels))) ∧
      (s.providers.map (fun pr => (pr.1, okModels pr.2.listModels))).map (fun en => en.1) =
        s.ListProviders) ∧
    ((∃ pr ∈ s.providers, ∃ err, pr.2.listModels = Except.error err) →
      ∃ n err, s.ListModels = Except.error (ServiceError.failedToListModels n err) ∧
        ∃ p, (n, p) ∈ s.providers ∧ p.listModels = Except.error err) := by
  constructor
  · intro h
    refine ⟨listModelsLoop_all_ok s.providers h, ?_⟩
    rw [List.map_map]
    rfl
  · intro h
    exact listModelsLoop_fails s.providers h

/-- Witness for C9: the spec §8 two-provider scenario for the success
half, and a registry with one failing provider for the failure half. -/
theorem listModels_aggregate_witness :
    (svcAB.ListModels =
        Except.ok (svcAB.providers.map (fun pr => (pr.1, okModels pr.2.listModels))) ∧
      (svcAB.providers.map (fun pr => (pr.1, okModels pr.2.listModels))).map (fun en => en.1) =
        svcAB.ListProviders) ∧
    (∃ n err, svcWithFailing.ListModels =
        Except.error (ServiceError.failedToListModels n err) ∧
      ∃ p, (n, p) ∈ svcWithFailing.providers ∧ p.listModels = Except.error err) :=
  ⟨(listModels_aggregate svcAB).1 (by
      intro pr hpr
      simp only [svcAB, List.mem_cons, List.not_mem_nil, or_false] at hpr
      rcases hpr with rfl | rfl <;> exact ⟨_, rfl⟩),
   (listModels_aggregate svcWithFailing).2
      ⟨("c", providerC), by simp [svcWithFailing], "boom", rfl⟩⟩

end LLMSpec
